import Mathlib

/-!
# Verification of the multi-factor industry capital-flow analysis system

Shallow embedding of the two source files of the repository
(`Industrytrending.py` and `ParallelUtils.py`) and proofs about them.

Modelling conventions:
* Python floats are modelled by `PyFloat` (an exact rational, an infinity with
  a sign, or NaN); the pipeline's arithmetic is carried out on exact rationals,
  so binary floating-point rounding noise is idealised away, while the
  NaN-propagation behaviour that the code actually relies on (via `pd.isna`,
  `fillna`, NaN-keeping ranks and IEEE comparisons) is modelled explicitly.
* `str.strip()` is modelled by `pyStrip`, and `'亿' in s` /
  `s.replace('亿','')` by character containment / removal on the char list.
* Python's `float(...)` literal parser is modelled by `parsePyFloat`
  (optional sign, `inf`/`infinity`/`nan` case-insensitively, decimal digits
  with an optional fraction part and an optional integer exponent; the rarely
  used digit-group underscores of Python ≥ 3.6 are not modelled).
-/

/-- A Python float value: NaN, a signed infinity (`true` = negative), or a
finite value, idealised as an exact rational. -/
inductive PyFloat where
  | pnan : PyFloat
  | pinf : Bool → PyFloat
  | pnum : ℚ → PyFloat
deriving DecidableEq, Repr, Inhabited

/-- Multiplication of a Python float by a positive rational constant
(IEEE: `nan * k = nan`, `±inf * k = ±inf` for `k > 0`).  Used only with
`k = 10000`. -/
def PyFloat.pymul (x : PyFloat) (k : ℚ) : PyFloat :=
  match x with
  | .pnan => .pnan
  | .pinf b => .pinf b
  | .pnum q => .pnum (q * k)

/-- Division of a Python float by a positive rational constant
(IEEE: `nan / k = nan`, `±inf / k = ±inf` for `k > 0`).  Used only with
`k = 10000`. -/
def PyFloat.pydiv (x : PyFloat) (k : ℚ) : PyFloat :=
  match x with
  | .pnan => .pnan
  | .pinf b => .pinf b
  | .pnum q => .pnum (q / k)

/-- A Python value as it can appear in a dataframe cell handed to the
normalisation routines: `None`, a float, or a string. -/
inductive PyVal where
  | vnone : PyVal
  | vfloat : PyFloat → PyVal
  | vstr : String → PyVal
deriving DecidableEq, Repr

/-- Python `str.isspace` characters relevant to `strip()` (ASCII whitespace). -/
def isPySpace (c : Char) : Bool :=
  c = ' ' ∨ c = '\t' ∨ c = '\n' ∨ c = '\r' ∨ c = '\x0b' ∨ c = '\x0c'

/-- Python `str.strip()`: drop leading and trailing whitespace. -/
def pyStrip (s : String) : String :=
  ⟨((s.data.dropWhile isPySpace).reverse.dropWhile isPySpace).reverse⟩

/-- ASCII lowercasing of one character (enough for the `inf`/`nan` literals). -/
def pyLowerChar (c : Char) : Char :=
  if 'A' ≤ c ∧ c ≤ 'Z' then Char.ofNat (c.toNat + 32) else c

/-- ASCII `str.lower()`. -/
def pyLower (s : String) : String := ⟨s.data.map pyLowerChar⟩

/-- Numeric value of a decimal digit character. -/
def digitVal (c : Char) : ℕ := c.toNat - 48

/-- Value of a big-endian list of decimal digit characters. -/
def digitsVal (cs : List Char) : ℕ := cs.foldl (fun a c => 10 * a + digitVal c) 0

/-- The core of Python's `float()` grammar after sign stripping:
`digits [. digits] [e [sign] digits]`, at least one mantissa digit. -/
def parseDecimalCore (cs : List Char) : Option ℚ :=
  let mant := cs.takeWhile (fun c => c ≠ 'e')
  let erest := cs.dropWhile (fun c => c ≠ 'e')
  let expPart : Option ℤ :=
    match erest with
    | [] => some 0
    | _ :: es =>
      let esign : ℤ := match es with | '-' :: _ => -1 | _ => 1
      let edigits := match es with | '+' :: t => t | '-' :: t => t | t => t
      if edigits ≠ [] ∧ edigits.all Char.isDigit then some (esign * digitsVal edigits)
      else none
  let ip := mant.takeWhile (fun c => c ≠ '.')
  let frest := mant.dropWhile (fun c => c ≠ '.')
  let fp := match frest with | [] => ([] : List Char) | _ :: t => t
  if (ip ++ fp) ≠ [] ∧ ip.all Char.isDigit ∧ fp.all Char.isDigit then
    match expPart with
    | some e =>
        some (((digitsVal ip : ℚ) + (digitsVal fp : ℚ) / (10 : ℚ) ^ fp.length) * (10 : ℚ) ^ e)
    | none => none
  else none

/-- Python's `float(s)` on a string: strips whitespace, handles an optional
sign, the `inf`/`infinity`/`nan` literals (case-insensitive), or a decimal
numeral; `none` models the `ValueError` case. -/
def parsePyFloat (s : String) : Option PyFloat :=
  let t := pyLower (pyStrip s)
  let neg : Bool := match t.data with | '-' :: _ => true | _ => false
  let cs : List Char := match t.data with | '+' :: r => r | '-' :: r => r | r => r
  if cs = "inf".data ∨ cs = "infinity".data then some (.pinf neg)
  else if cs = "nan".data then some .pnan
  else (parseDecimalCore cs).map (fun q => .pnum (if neg then -q else q))

/-- `'c' in s` on a Python string. -/
def strContains (s : String) (c : Char) : Bool := s.data.contains c

/-- `s.replace(c, '')` on a Python string (removes every occurrence of the
single character `c`). -/
def strRemoveAll (s : String) (c : Char) : String := ⟨s.data.filter (fun d => d ≠ c)⟩

/-- `float(x)`-with-fallback: the value on success, `0.0` when the enclosing
`try`/`except` catches the `ValueError`. -/
def pyFloatOr0 (o : Option PyFloat) : PyFloat := o.getD (.pnum 0)

/-- `IndustryFlowAnalyzer._normalize_amount` from `Industrytrending.py`:

    if pd.isna(val): return 0.0
    s = str(val).strip()
    try:
        if '亿' in s: return float(s.replace('亿', ''))
        elif '万' in s: return float(s.replace('万', '')) / 10000.0
        else: return float(s)
    except: return 0.0

For a non-NaN float input, `float(str(val))` round-trips (Python float `repr`
is exact), so that case returns the value itself. -/
def normalize_amount : PyVal → PyFloat
  | .vnone => .pnum 0
  | .vfloat .pnan => .pnum 0
  | .vfloat f => f
  | .vstr s =>
    let t := pyStrip s
    if strContains t '亿' then pyFloatOr0 (parsePyFloat (strRemoveAll t '亿'))
    else if strContains t '万' then (pyFloatOr0 (parsePyFloat (strRemoveAll t '万'))).pydiv 10000
    else pyFloatOr0 (parsePyFloat t)

/-- `convert_to_wan` from `_normalize_fund_data` in `ParallelUtils.py`:

    if val is None or str(val).strip() in ['', '-']: return 0.0
    val_str = str(val).strip()
    try:
        if '亿' in val_str: return float(val_str.replace('亿', '')) * 10000
        elif '万' in val_str: return float(val_str.replace('万', ''))
        else: return float(val_str)
    except: return 0.0

Note there is no `pd.isna` guard here: a float input (NaN included) prints to a
string with no unit suffix and parses back to itself. -/
def convert_to_wan : PyVal → PyFloat
  | .vnone => .pnum 0
  | .vfloat f => f
  | .vstr s =>
    let t := pyStrip s
    if t = "" ∨ t = "-" then .pnum 0
    else if strContains t '亿' then (pyFloatOr0 (parsePyFloat (strRemoveAll t '亿'))).pymul 10000
    else if strContains t '万' then pyFloatOr0 (parsePyFloat (strRemoveAll t '万'))
    else pyFloatOr0 (parsePyFloat t)

/-! ## The bounded-concurrency task runner of `ParallelUtils.py` -/

/-- The outcome of one Python worker invocation `worker_func(item)`: the call
raised an exception, or returned a value (`value none` models returning
Python `None`). -/
inductive WorkerOutcome (β : Type) where
  | raised : WorkerOutcome β
  | value : Option β → WorkerOutcome β
deriving DecidableEq, Repr

/-- `true` iff the invocation raised. -/
def WorkerOutcome.isRaised : WorkerOutcome β → Bool
  | .raised => true
  | .value _ => false

/-- `true` iff the invocation returned a non-`None` value. -/
def WorkerOutcome.returnsSome : WorkerOutcome β → Bool
  | .value (some _) => true
  | _ => false

/-- The `items : Iterable` argument of `run_with_thread_pool`: either a
materialised list (re-iterable) or a one-shot generator holding its remaining
elements. -/
inductive ItemsArg (α : Type) where
  | list : List α → ItemsArg α
  | gen : List α → ItemsArg α
deriving DecidableEq, Repr

/-- One full iteration pass over the argument (`list(items)` or a
comprehension): the elements produced, and the state of the argument
afterwards — iterating a generator exhausts it. -/
def ItemsArg.consume : ItemsArg α → List α × ItemsArg α
  | .list xs => (xs, .list xs)
  | .gen xs => (xs, .gen [])

/-- What a call to `run_with_thread_pool` did: the count it computed for the
log line, the items actually submitted to the executor, and the collected
successful results. -/
structure PoolOutcome (α β : Type) where
  total : ℕ
  submitted : List α
  results : List β
deriving DecidableEq, Repr

/-- What one completed future contributes to the result list: nothing when the
invocation raised (caught and logged) or returned `None`, its value
otherwise. -/
def collectResult (w : α → WorkerOutcome β) (a : α) : Option β :=
  match w a with
  | .raised => none
  | .value none => none
  | .value (some b) => some b

/-- `run_with_thread_pool` from `ParallelUtils.py` (default `max_workers=10`):

    results = []
    total = len(list(items))            # consumes a generator!
    with ThreadPoolExecutor(max_workers=max_workers) as executor:
        future_to_item = {executor.submit(worker_func, item): item for item in items}
        for future in as_completed(future_to_item):
            try:
                res = future.result()
                if res is not None: results.append(res)
            except Exception as e: ...

`max_workers` bounds scheduling parallelism only; which futures succeed and
what they return is determined solely by `worker_func` on each item, so the
collected result set is modelled sequentially in input order (`as_completed`
yields an unspecified completion order, and the claims proved below concern
only counts and membership, which that order cannot change). -/
def run_with_thread_pool (items : ItemsArg α) (worker_func : α → WorkerOutcome β)
    (max_workers : ℕ) : PoolOutcome α β :=
  let consumed := items.consume
  let submitted := consumed.2.consume.1
  { total := consumed.1.length, submitted := submitted,
    results := submitted.filterMap (collectResult worker_func) }

/-! ## Data model of the aggregation pipeline (`Industrytrending.py`)

Column-name mapping used below (the source's dataframes are Chinese-labelled):
`industry` = 行业名称, `indexVal` = 行业指数, `pctNow` = 涨幅_now,
`netNow` = 净额_now, `inflow` = 流入资金, `leadStock` = 领涨股,
`leadPct` = 领涨股-涨跌幅, `net3d/…/net20d` = 净额_3d/…/净额_20d,
`pct3d/…/pct20d` = 涨幅_3d/…/涨幅_20d, `turnover` = 换手率,
`bigDeal` = 大单印证, `moneyScore` = 资金分, `priceScore` = 价格分,
`turnScore` = 换手分, `trendScore` = 趋势得分, `signal` = 行业信号. -/

/-- `true` unless the value is NaN. -/
def PyFloat.isNotNan : PyFloat → Bool
  | .pnan => false
  | _ => true

/-- IEEE strict `<` on Python floats: false whenever either side is NaN;
`-inf` below every non-NaN value, `+inf` above. -/
def PyFloat.plt (x y : PyFloat) : Bool :=
  match x, y with
  | .pnan, _ => false
  | _, .pnan => false
  | .pinf true, .pinf true => false
  | .pinf true, _ => true
  | .pinf false, _ => false
  | .pnum _, .pinf false => true
  | .pnum _, .pinf true => false
  | .pnum a, .pnum b => decide (a < b)

/-- IEEE `==` on Python floats: false whenever either side is NaN. -/
def PyFloat.pyEq (x y : PyFloat) : Bool :=
  match x, y with
  | .pnan, _ => false
  | _, .pnan => false
  | a, b => decide (a = b)

/-- IEEE `≤`. -/
def PyFloat.ple (x y : PyFloat) : Bool := x.plt y || x.pyEq y

/-- `x > k` for a literal threshold `k`. -/
def PyFloat.gtQ (x : PyFloat) (k : ℚ) : Bool := PyFloat.plt (.pnum k) x

/-- `x < k` for a literal threshold `k`. -/
def PyFloat.ltQ (x : PyFloat) (k : ℚ) : Bool := x.plt (.pnum k)

/-- `k ≤ x` for a literal threshold `k`. -/
def PyFloat.geQ (x : PyFloat) (k : ℚ) : Bool := PyFloat.ple (.pnum k) x

/-- `x ≤ k` for a literal threshold `k`. -/
def PyFloat.leQ (x : PyFloat) (k : ℚ) : Bool := x.ple (.pnum k)

/-- IEEE addition restricted to the values in play: NaN propagates,
same-signed infinities keep their sign, opposite ones give NaN. -/
def PyFloat.padd (x y : PyFloat) : PyFloat :=
  match x, y with
  | .pnan, _ => .pnan
  | _, .pnan => .pnan
  | .pinf a, .pinf b => if a = b then .pinf a else .pnan
  | .pinf a, .pnum _ => .pinf a
  | .pnum _, .pinf b => .pinf b
  | .pnum a, .pnum b => .pnum (a + b)

/-- `Series.fillna(0.0)` on one value. -/
def fillnaPF (x : PyFloat) : PyFloat :=
  match x with
  | .pnan => .pnum 0
  | v => v

/-- `Series.round(2)` on one value: rounding to two decimals of an exact
rational, half away from the nearer integer going up (numpy rounds binary
floats half-to-even; the two can differ only at exact `.005` boundaries, on
which no claim proved here depends). -/
def round2 (x : PyFloat) : PyFloat :=
  match x with
  | .pnan => .pnan
  | .pinf b => .pinf b
  | .pnum q => .pnum ((round (q * 100) : ℤ) / 100)

/-- The value is a real number in the closed interval `[lo, hi]`
(NaN and the infinities fail every such bound). -/
def PyFloat.inIcc (x : PyFloat) (lo hi : ℚ) : Prop :=
  match x with
  | .pnum q => lo ≤ q ∧ q ≤ hi
  | _ => False

/-- One row of the cleaned instant-window dataset, i.e. the columns selected
into `main` at line 95 of `Industrytrending.py`.  After `_fetch_and_clean`,
money columns are numeric and NaN-free (`pd.to_numeric(...).fillna(0.0)`),
while percentage columns get no `fillna` and may in principle still be NaN. -/
structure InstantRow where
  industry : String
  indexVal : PyFloat
  pctNow : PyFloat
  netNow : ℚ
  inflow : ℚ
  leadStock : String
  leadPct : PyFloat
deriving DecidableEq, Repr, Inhabited

/-- One row of a cleaned trailing-window dataset (3d/5d/10d/20d): the columns
`['行业名称', '净额', '阶段涨跌幅']` selected at line 100. -/
structure TrailingRow where
  industry : String
  net : ℚ
  stagePct : PyFloat
deriving DecidableEq, Repr, Inhabited

/-- One row of the turnover enrichment dataset (`_fetch_market_turnover`). -/
structure TurnoverRow where
  industry : String
  turnover : PyFloat
deriving DecidableEq, Repr, Inhabited

/-- One row of the merged frame `main` once every column of steps 1–2 exists. -/
structure MergedRow where
  industry : String
  indexVal : PyFloat
  pctNow : PyFloat
  netNow : ℚ
  inflow : ℚ
  leadStock : String
  leadPct : PyFloat
  net3d : PyFloat
  pct3d : PyFloat
  net5d : PyFloat
  pct5d : PyFloat
  net10d : PyFloat
  pct10d : PyFloat
  net20d : PyFloat
  pct20d : PyFloat
  turnover : PyFloat
  bigDeal : String
deriving DecidableEq, Repr, Inhabited

/-- A freshly selected base row (step 1 of `run_analysis`).  The trailing
window and enrichment columns do not exist in the dataframe yet; the
placeholder values below are never read: a missing window aborts the run at
the `KeyError` of the fill loop before any use of its columns, and the
turnover / big-deal columns are always assigned before use. -/
def initMerged (r : InstantRow) : MergedRow :=
  { industry := r.industry, indexVal := r.indexVal, pctNow := r.pctNow,
    netNow := r.netNow, inflow := r.inflow, leadStock := r.leadStock,
    leadPct := r.leadPct, net3d := .pnan, pct3d := .pnan, net5d := .pnan,
    pct5d := .pnan, net10d := .pnan, pct10d := .pnan, net20d := .pnan,
    pct20d := .pnan, turnover := .pnan, bigDeal := "" }

/-- `pd.merge(main, tmp, on='行业名称', how='left')` for one trailing window,
under the data model's uniqueness of the industry key within a dataset: each
base row receives the matching right row's `净额`/`阶段涨跌幅` pair via `upd`,
or NaN for both when unmatched. -/
def mergeWindow (rows : List MergedRow) (t : List TrailingRow)
    (upd : MergedRow → PyFloat → PyFloat → MergedRow) : List MergedRow :=
  rows.map fun r =>
    match t.find? (fun tr => tr.industry = r.industry) with
    | some tr => upd r (.pnum tr.net) tr.stagePct
    | none => upd r .pnan .pnan

/-- Left-merge of the turnover dataset (`换手率` column), NaN when unmatched. -/
def mergeTurnover (rows : List MergedRow) (t : List TurnoverRow) : List MergedRow :=
  rows.map fun r =>
    match t.find? (fun tr => tr.industry = r.industry) with
    | some tr => { r with turnover := tr.turnover }
    | none => { r with turnover := .pnan }

/-- Steps 1–3 of `run_analysis` as a pure frame computation: select the base
columns, left-merge each non-empty trailing window, merge or default the
turnover column, compute the big-deal confirmation flag, and apply
`fillna(0.0)` to the four trailing net-flow columns (and only to those). -/
def pipelineRows (now : List InstantRow) (d3 d5 d10 d20 : List TrailingRow)
    (turnover : List TurnoverRow) (big_deal_stocks : List String) :
    List MergedRow :=
  let main0 := now.map initMerged
  let m1 := if d3 ≠ [] then
    mergeWindow main0 d3 (fun r n p => { r with net3d := n, pct3d := p }) else main0
  let m2 := if d5 ≠ [] then
    mergeWindow m1 d5 (fun r n p => { r with net5d := n, pct5d := p }) else m1
  let m3 := if d10 ≠ [] then
    mergeWindow m2 d10 (fun r n p => { r with net10d := n, pct10d := p }) else m2
  let m4 := if d20 ≠ [] then
    mergeWindow m3 d20 (fun r n p => { r with net20d := n, pct20d := p }) else m3
  let m5 := if turnover ≠ [] then mergeTurnover m4 turnover
    else m4.map (fun r => { r with turnover := .pnum 0 })
  let m6 := m5.map (fun r =>
    { r with bigDeal := if big_deal_stocks.contains r.leadStock then "确认" else "无" })
  m6.map (fun r => { r with
    net3d := fillnaPF r.net3d, net5d := fillnaPF r.net5d,
    net10d := fillnaPF r.net10d, net20d := fillnaPF r.net20d })

/-- The money-score base series of line 118:
`净额_3d * 0.4 + 净额_5d * 0.3 + 净额_10d * 0.2 + 净额_20d * 0.1`. -/
def moneyBase (r : MergedRow) : PyFloat :=
  (((r.net3d.pymul (4/10)).padd (r.net5d.pymul (3/10))).padd
    (r.net10d.pymul (2/10))).padd (r.net20d.pymul (1/10))

/-- pandas `Series.rank(pct=True) * 100` for the entry `v` of column `col`
(method `'average'`, `na_option='keep'`): the average of the ranks the tied
group occupies, divided by the count of non-NaN entries, times 100; a NaN
entry stays NaN.  `asc = false` models `ascending=False`. -/
def rankPctScore (asc : Bool) (col : List PyFloat) (v : PyFloat) : PyFloat :=
  match v with
  | .pnan => .pnan
  | x =>
    let m := (col.filter PyFloat.isNotNan).length
    let cBefore := (col.filter (fun w => if asc then w.plt x else x.plt w)).length
    let cEq := (col.filter (fun w => w.pyEq x)).length
    .pnum (((cBefore : ℚ) + ((cEq : ℚ) + 1) / 2) / (m : ℚ) * 100)

/-- The classification of lines 125–135: `np.select(conds, choices, default)`
evaluates the condition list in order and takes the first match, so per row it
is the if-chain below.  `between(50, 80)` is inclusive on both ends; every
comparison is IEEE (false on NaN). -/
def signalFor (money price turn trend : PyFloat) (bigDeal : String) : String :=
  if trend.gtQ 85 then "资金主攻"
  else if trend.ltQ 25 then "退潮预警"
  else if money.gtQ 75 && price.ltQ 50 && turn.gtQ 60 then "黄金坑潜入"
  else if (trend.geQ 50 && trend.leQ 80) && bigDeal == "确认" then "低位强异动"
  else "观望区间"

/-- Modelled from the spec (§4.6): the classifier as an explicit ordered list
of (condition, label) pairs, first match wins, default when none match.  Used
to state that the source's `np.select` call implements exactly this rule
list. -/
def signalRules (money price turn trend : PyFloat) (bigDeal : String) :
    List (Bool × String) :=
  [ (trend.gtQ 85, "资金主攻"),
    (trend.ltQ 25, "退潮预警"),
    (money.gtQ 75 && price.ltQ 50 && turn.gtQ 60, "黄金坑潜入"),
    ((trend.geQ 50 && trend.leQ 80) && bigDeal == "确认", "低位强异动") ]

/-- First-match-wins evaluation of an ordered rule list. -/
def firstMatch : List (Bool × String) → String → String
  | [], dflt => dflt
  | (c, l) :: rest, dflt => if c then l else firstMatch rest dflt

/-- One scored output row: the merged columns plus the four derived scores
and the signal label. -/
structure ResultRow where
  row : MergedRow
  moneyScore : PyFloat
  priceScore : PyFloat
  turnScore : PyFloat
  trendScore : PyFloat
  signal : String
deriving DecidableEq, Repr, Inhabited

/-- Score one row of the frame `rows` (lines 118–121 and 125–135: the four
derived score columns, then the signal column). -/
def scoredOf (rows : List MergedRow) (r : MergedRow) : ResultRow :=
  let m := rankPctScore true (rows.map moneyBase) (moneyBase r)
  let p := rankPctScore true (rows.map (·.pctNow)) r.pctNow
  let t := rankPctScore false (rows.map (·.turnover)) r.turnover
  let tr := round2 ((m.pymul (5/10)).padd (p.pymul (5/10)))
  { row := r, moneyScore := m, priceScore := p, turnScore := t, trendScore := tr,
    signal := signalFor m p t tr r.bigDeal }

/-- The scoring-and-classification stage applied to the whole frame. -/
def scoreRows (rows : List MergedRow) : List ResultRow :=
  rows.map (scoredOf rows)

/-- The comparison behind `sort_values('趋势得分', ascending=False)`:
descending trend score, NaN entries last (pandas default
`na_position='last'`). -/
def trendLE (a b : ResultRow) : Bool :=
  match a.trendScore, b.trendScore with
  | .pnan, .pnan => true
  | .pnan, _ => false
  | _, .pnan => true
  | x, y => PyFloat.ple y x

/-- Insert a row into a list already sorted by `trendLE`. -/
def insertByTrend (x : ResultRow) : List ResultRow → List ResultRow
  | [] => [x]
  | y :: t => if trendLE x y then x :: y :: t else y :: insertByTrend x t

/-- `sort_values('趋势得分', ascending=False)`, modelled with a (stable)
insertion sort; the source's default quicksort is unstable, so no claim proved
here depends on the relative order of exactly-tied trend scores. -/
def sortByTrend : List ResultRow → List ResultRow
  | [] => []
  | x :: t => insertByTrend x (sortByTrend t)

/-! ## The daily cache artifact

The cache file is a UTF-8 tab-separated table (`to_csv(sep='\t')` /
`pd.read_csv(sep='\t')`).  It is modelled at the level of cells: a file is a
header line followed by one list of cell strings per row (pandas' quoting
makes the tab-joining/splitting invertible even for cells containing
separators, so that layer is exact and elided).  Numeric cells are printed in
an exact `numerator/denominator` form with a proven-invertible decimal
numeral printer; this mirrors the source's reliance on Python float `repr`
round-tripping through `read_csv`.  NaN is written as an empty field and the
infinities as `inf`/`-inf`, exactly as pandas writes and re-reads them. -/

/-- Decimal digit character for `d < 10`. -/
def decDigitChar (d : ℕ) : Char := Char.ofNat (48 + d)

/-- Little-endian decimal digit characters of `n`, with explicit fuel to keep
the recursion structural. -/
def natDigitsAux : ℕ → ℕ → List Char
  | 0, _ => []
  | _ + 1, 0 => []
  | fuel + 1, n + 1 => decDigitChar ((n + 1) % 10) :: natDigitsAux fuel ((n + 1) / 10)

/-- Print a natural number as a decimal numeral. -/
def printNat (n : ℕ) : List Char :=
  if n = 0 then ['0'] else (natDigitsAux n n).reverse

/-- Parse a non-empty all-digit numeral. -/
def parseNat (cs : List Char) : Option ℕ :=
  if cs ≠ [] ∧ cs.all Char.isDigit then
    some (Nat.ofDigits 10 ((cs.map digitVal).reverse))
  else none

/-- Print an integer (minus sign plus decimal numeral). -/
def printInt (n : ℤ) : List Char :=
  if n < 0 then '-' :: printNat n.natAbs else printNat n.natAbs

/-- Parse an optionally minus-signed decimal numeral. -/
def parseInt (cs : List Char) : Option ℤ :=
  if cs.head? = some '-' then (parseNat cs.tail).map (fun m => -(Int.ofNat m))
  else (parseNat cs).map (fun m => Int.ofNat m)

/-- Print a rational exactly as `num/den`. -/
def printQ (q : ℚ) : List Char := printInt q.num ++ '/' :: printNat q.den

/-- Parse `num/den`. -/
def parseQ (cs : List Char) : Option ℚ :=
  let np := cs.takeWhile (fun c => c ≠ '/')
  let rest := cs.dropWhile (fun c => c ≠ '/')
  match rest with
  | _ :: dp =>
    match parseInt np, parseNat dp with
    | some a, some b => if b ≠ 0 then some ((a : ℚ) / (b : ℚ)) else none
    | _, _ => none
  | [] => none

/-- Print one float-valued cell. -/
def printCellPF (x : PyFloat) : String :=
  match x with
  | .pnan => ""
  | .pinf false => "inf"
  | .pinf true => "-inf"
  | .pnum q => ⟨printQ q⟩

/-- Parse one float-valued cell. -/
def parseCellPF (s : String) : Option PyFloat :=
  if s = "" then some .pnan
  else if s = "inf" then some (.pinf false)
  else if s = "-inf" then some (.pinf true)
  else (parseQ s.data).map .pnum

/-- Print one NaN-free numeric cell. -/
def printCellQ (v : ℚ) : String := ⟨printQ v⟩

/-- Parse one NaN-free numeric cell. -/
def parseCellQ (s : String) : Option ℚ := parseQ s.data

/-- The cell strings of one written row, in the source frame's column order. -/
def serializeRow (x : ResultRow) : List String :=
  [x.row.industry, printCellPF x.row.indexVal, printCellPF x.row.pctNow,
   printCellQ x.row.netNow, printCellQ x.row.inflow, x.row.leadStock,
   printCellPF x.row.leadPct, printCellPF x.row.net3d, printCellPF x.row.pct3d,
   printCellPF x.row.net5d, printCellPF x.row.pct5d, printCellPF x.row.net10d,
   printCellPF x.row.pct10d, printCellPF x.row.net20d, printCellPF x.row.pct20d,
   printCellPF x.row.turnover, x.row.bigDeal, printCellPF x.moneyScore,
   printCellPF x.priceScore, printCellPF x.turnScore, printCellPF x.trendScore,
   x.signal]

/-- The `i`-th cell of a data line. -/
def cellAt (cells : List String) (i : ℕ) : String := cells.getD i ""

/-- All numeric cells of a data line parse. -/
def rowCellsValid (cells : List String) : Bool :=
  (parseCellPF (cellAt cells 1)).isSome && (parseCellPF (cellAt cells 2)).isSome &&
  (parseCellQ (cellAt cells 3)).isSome && (parseCellQ (cellAt cells 4)).isSome &&
  (parseCellPF (cellAt cells 6)).isSome && (parseCellPF (cellAt cells 7)).isSome &&
  (parseCellPF (cellAt cells 8)).isSome && (parseCellPF (cellAt cells 9)).isSome &&
  (parseCellPF (cellAt cells 10)).isSome && (parseCellPF (cellAt cells 11)).isSome &&
  (parseCellPF (cellAt cells 12)).isSome && (parseCellPF (cellAt cells 13)).isSome &&
  (parseCellPF (cellAt cells 14)).isSome && (parseCellPF (cellAt cells 15)).isSome &&
  (parseCellPF (cellAt cells 17)).isSome && (parseCellPF (cellAt cells 18)).isSome &&
  (parseCellPF (cellAt cells 19)).isSome && (parseCellPF (cellAt cells 20)).isSome

/-- Build the row from a validated line (the `.getD` defaults are never
exercised on a line that passed `rowCellsValid`). -/
def rowOfCells (cells : List String) : ResultRow :=
  { row := { industry := cellAt cells 0,
             indexVal := (parseCellPF (cellAt cells 1)).getD .pnan,
             pctNow := (parseCellPF (cellAt cells 2)).getD .pnan,
             netNow := (parseCellQ (cellAt cells 3)).getD 0,
             inflow := (parseCellQ (cellAt cells 4)).getD 0,
             leadStock := cellAt cells 5,
             leadPct := (parseCellPF (cellAt cells 6)).getD .pnan,
             net3d := (parseCellPF (cellAt cells 7)).getD .pnan,
             pct3d := (parseCellPF (cellAt cells 8)).getD .pnan,
             net5d := (parseCellPF (cellAt cells 9)).getD .pnan,
             pct5d := (parseCellPF (cellAt cells 10)).getD .pnan,
             net10d := (parseCellPF (cellAt cells 11)).getD .pnan,
             pct10d := (parseCellPF (cellAt cells 12)).getD .pnan,
             net20d := (parseCellPF (cellAt cells 13)).getD .pnan,
             pct20d := (parseCellPF (cellAt cells 14)).getD .pnan,
             turnover := (parseCellPF (cellAt cells 15)).getD .pnan,
             bigDeal := cellAt cells 16 },
    moneyScore := (parseCellPF (cellAt cells 17)).getD .pnan,
    priceScore := (parseCellPF (cellAt cells 18)).getD .pnan,
    turnScore := (parseCellPF (cellAt cells 19)).getD .pnan,
    trendScore := (parseCellPF (cellAt cells 20)).getD .pnan,
    signal := cellAt cells 21 }

/-- Parse one data line back into a row (`none` on any malformed cell or a
wrong column count - a reloaded frame that does not carry the expected
columns/types is outside the typed model). -/
def parseRow (cells : List String) : Option ResultRow :=
  if cells.length = 22 && rowCellsValid cells then some (rowOfCells cells) else none

/-- Parse all data lines (`none` as soon as one row fails). -/
def parseRows : List (List String) → Option (List ResultRow)
  | [] => some []
  | c :: rest =>
    match parseRow c, parseRows rest with
    | some r, some rs => some (r :: rs)
    | _, _ => none

/-- The header line written by `to_csv` (the column labels of the frame). -/
def headerCells : List String :=
  ["行业名称", "行业指数", "涨幅_now", "净额_now", "流入资金", "领涨股",
   "领涨股-涨跌幅", "净额_3d", "涨幅_3d", "净额_5d", "涨幅_5d", "净额_10d",
   "涨幅_10d", "净额_20d", "涨幅_20d", "换手率", "大单印证", "资金分",
   "价格分", "换手分", "趋势得分", "行业信号"]

/-- `result.to_csv(sep='\t', index=False)`: header line, then one line per
row, in order. -/
def serializeTable (t : List ResultRow) : List (List String) :=
  headerCells :: t.map serializeRow

/-- `pd.read_csv(path, sep='\t')`: an empty file raises (cache miss); the
first line is consumed as the header and the remaining lines are the rows. -/
def parseTable (f : List (List String)) : Option (List ResultRow) :=
  match f with
  | [] => none
  | _ :: rows => parseRows rows

/-! ## `run_analysis` -/

/-- What one `run_analysis` call produced: the returned dataframe and the
cache file written (`none` when nothing was written). -/
structure AnalysisOutcome where
  table : List ResultRow
  cacheWrite : Option (List (List String))
deriving DecidableEq, Repr, Inhabited

/-- `IndustryFlowAnalyzer.run_analysis` (lines 76–146).  Parameters model the
external world:
* `cached` — today's cache file if one exists on disk, else `none`;
* `now, d3, d5, d10, d20` — the five cleaned window datasets from
  `_fetch_and_clean` (an empty list models both a failed fetch and an empty
  dataframe: either way the window is left out of `dfs`, line 89);
* `turnover` — `_fetch_market_turnover`'s dataset (empty on failure);
* `big_deal_stocks` — the buy-classified stock names from
  `_fetch_big_deal_logic`.

The call is `Except.error` when the body raises: with the mandatory instant
window present but a trailing window's dataset absent, `main[col]` in the fill
loop of line 116 raises `KeyError` on that window's `净额` column (the guards
below fire in the loop's column order).  Otherwise the sorted scored frame is
returned, and — except on the cache-hit and empty-instant paths — also written
to the cache.  A cache file that fails to parse is a logged cache miss and
falls through to recomputation. -/
def run_analysis (cached : Option (List (List String)))
    (now : List InstantRow) (d3 d5 d10 d20 : List TrailingRow)
    (turnover : List TurnoverRow) (big_deal_stocks : List String) :
    Except String AnalysisOutcome :=
  match cached.bind parseTable with
  | some t => .ok { table := t, cacheWrite := none }
  | none =>
    if now = [] then .ok { table := [], cacheWrite := none }
    else if d3 = [] then .error "KeyError: 净额_3d"
    else if d5 = [] then .error "KeyError: 净额_5d"
    else if d10 = [] then .error "KeyError: 净额_10d"
    else if d20 = [] then .error "KeyError: 净额_20d"
    else
      let result :=
        sortByTrend (scoreRows (pipelineRows now d3 d5 d10 d20 turnover big_deal_stocks))
      .ok { table := result, cacheWrite := some (serializeTable result) }

/-- Decidable equality of `Except` results, so that concrete runs can be
checked by evaluation. -/
instance {ε α : Type} [DecidableEq ε] [DecidableEq α] : DecidableEq (Except ε α) :=
  fun a b =>
    match a, b with
    | .error e, .error f =>
      if h : e = f then isTrue (congrArg Except.error h)
      else isFalse (fun hc => h (Except.error.inj hc))
    | .ok x, .ok y =>
      if h : x = y then isTrue (congrArg Except.ok h)
      else isFalse (fun hc => h (Except.ok.inj hc))
    | .error _, .ok _ => isFalse (fun hc => Except.noConfusion hc)
    | .ok _, .error _ => isFalse (fun hc => Except.noConfusion hc)

/-! ## Concrete fixtures for the evaluation theorems -/

/-- Two cleaned instant-window rows. -/
def cNowAB : List InstantRow :=
  [{ industry := "半导体", indexVal := .pnum 900, pctNow := .pnum 3, netNow := 12,
     inflow := 30, leadStock := "中芯国际", leadPct := .pnum 5 },
   { industry := "白酒", indexVal := .pnum 800, pctNow := .pnum (-1), netNow := -4,
     inflow := 10, leadStock := "贵州茅台", leadPct := .pnum (-2) }]

/-- A trailing-window dataset carrying only the first industry (the second
stays unmatched in the left join). -/
def cWinA : List TrailingRow :=
  [{ industry := "半导体", net := 6, stagePct := .pnum 2 }]

/-- A turnover dataset missing the second industry: the left merge leaves
that row's `换手率` as NaN. -/
def cTurnA : List TurnoverRow :=
  [{ industry := "半导体", turnover := .pnum 7 }]

/-- A turnover dataset covering both industries. -/
def cTurnAB : List TurnoverRow :=
  [{ industry := "半导体", turnover := .pnum 7 },
   { industry := "白酒", turnover := .pnum 9 }]

/-- The outcome of the fully-enriched concrete run. -/
def cOutFull : AnalysisOutcome :=
  (run_analysis none cNowAB cWinA cWinA cWinA cWinA cTurnAB []).toOption.getD
    { table := [], cacheWrite := none }

/-- The top row of that run's table. -/
def cRowFull : ResultRow := cOutFull.table.getD 0 default

/-- The outcome of the degraded concrete run whose turnover dataset misses
one industry. -/
def cOutDeg : AnalysisOutcome :=
  (run_analysis none cNowAB cWinA cWinA cWinA cWinA cTurnA []).toOption.getD
    { table := [], cacheWrite := none }

/-! ## Facts about the two amount normalisers (claims C8, C9) -/

/-- `(x / 10000) * 10000 = x` on Python floats (the two scale directions cancel). -/
theorem PyFloat.pydiv_pymul (x : PyFloat) : (x.pydiv 10000).pymul 10000 = x := by
  cases x with
  | pnan => rfl
  | pinf b => rfl
  | pnum q =>
    simp only [PyFloat.pydiv, PyFloat.pymul]
    exact congrArg PyFloat.pnum (div_mul_cancel₀ q (by norm_num))

/-- A string containing a unit-suffix character is neither `""` nor `"-"`. -/
theorem ne_empty_dash_of_contains {t : String} {c : Char} (h : strContains t c = true)
    (h1 : strContains "" c = false) (h2 : strContains "-" c = false) :
    ¬(t = "" ∨ t = "-") := by
  rintro (rfl | rfl) <;> simp_all

/-- **C8 (amended).** The amount normaliser `_normalize_amount` satisfies:
non-NaN numeric input passes through unchanged; NaN numeric input yields `0.0`
(via the `pd.isna` guard); blank or unparseable string input yields exactly
`0.0`; an `'亿'`-suffixed parseable string yields the bare parsed number and a
`'万'`-suffixed one the parsed number divided by `10000`; and the function is
idempotent on every one of its outputs **except** a NaN output (produced from
NaN-literal strings such as `"nan"`), which re-applying maps to `0.0`. -/
theorem C8_normalize_amount_contract :
    (∀ q : ℚ, normalize_amount (.vfloat (.pnum q)) = .pnum q) ∧
    (normalize_amount (.vfloat .pnan) = .pnum 0) ∧
    (normalize_amount (.vstr "") = .pnum 0) ∧
    (∀ s : String, strContains (pyStrip s) '亿' = false →
      strContains (pyStrip s) '万' = false →
      parsePyFloat (pyStrip s) = none → normalize_amount (.vstr s) = .pnum 0) ∧
    (∀ (s : String) (q : ℚ), strContains (pyStrip s) '亿' = true →
      parsePyFloat (strRemoveAll (pyStrip s) '亿') = some (.pnum q) →
      normalize_amount (.vstr s) = .pnum q) ∧
    (∀ (s : String) (q : ℚ), strContains (pyStrip s) '亿' = false →
      strContains (pyStrip s) '万' = true →
      parsePyFloat (strRemoveAll (pyStrip s) '万') = some (.pnum q) →
      normalize_amount (.vstr s) = .pnum (q / 10000)) ∧
    (∀ v : PyVal, normalize_amount v ≠ .pnan →
      normalize_amount (.vfloat (normalize_amount v)) = normalize_amount v) := by
  refine ⟨fun q => rfl, rfl, by decide, ?_, ?_, ?_, ?_⟩
  · intro s h1 h2 h3
    simp [normalize_amount, h1, h2, h3, pyFloatOr0]
  · intro s q h1 h2
    simp [normalize_amount, h1, h2, pyFloatOr0]
  · intro s q h1 h2 h3
    simp [normalize_amount, h1, h2, h3, pyFloatOr0, PyFloat.pydiv]
  · intro v h
    cases hv : normalize_amount v with
    | pnan => exact absurd hv h
    | pinf b => rfl
    | pnum q => rfl

/-- **C8 (counterexample to the claim as stated).** `_normalize_amount` is not
idempotent on all of its outputs: the parseable string `"nan"` is mapped to
float NaN, and re-applying the function to that output yields `0.0 ≠ NaN`. -/
theorem C8_counterexample_nan_not_idempotent :
    normalize_amount (PyVal.vstr "nan") = PyFloat.pnan ∧
    normalize_amount (PyVal.vfloat (normalize_amount (PyVal.vstr "nan"))) = PyFloat.pnum 0 ∧
    PyFloat.pnum 0 ≠ PyFloat.pnan := by
  refine ⟨by decide, ?_, by decide⟩
  have h : normalize_amount (PyVal.vstr "nan") = PyFloat.pnan := by decide
  rw [h]; rfl

/-- **C9.** The two numeric-normalisation routines use opposite scale
conventions for the same unit suffixes: on a parseable `'亿'`-suffixed string
`_normalize_amount` returns the bare number while `convert_to_wan` (inside
`_normalize_fund_data`) returns it times `10000`; on a parseable
`'万'`-suffixed string `_normalize_amount` divides by `10000` while
`convert_to_wan` returns it unchanged; and on every suffixed input the second
routine's result equals `10000` times the first routine's result. -/
theorem C9_opposite_scale_conventions :
    (∀ (s : String) (q : ℚ), strContains (pyStrip s) '亿' = true →
      parsePyFloat (strRemoveAll (pyStrip s) '亿') = some (.pnum q) →
      normalize_amount (.vstr s) = .pnum q ∧
        convert_to_wan (.vstr s) = .pnum (q * 10000)) ∧
    (∀ (s : String) (q : ℚ), strContains (pyStrip s) '亿' = false →
      strContains (pyStrip s) '万' = true →
      parsePyFloat (strRemoveAll (pyStrip s) '万') = some (.pnum q) →
      normalize_amount (.vstr s) = .pnum (q / 10000) ∧
        convert_to_wan (.vstr s) = .pnum q) ∧
    (∀ s : String,
      (strContains (pyStrip s) '亿' = true ∨ strContains (pyStrip s) '万' = true) →
      convert_to_wan (.vstr s) = (normalize_amount (.vstr s)).pymul 10000) := by
  refine ⟨?_, ?_, ?_⟩
  · intro s q h1 h2
    have hne := ne_empty_dash_of_contains h1 (by decide) (by decide)
    constructor
    · simp [normalize_amount, h1, h2, pyFloatOr0]
    · simp [convert_to_wan, hne, h1, h2, pyFloatOr0, PyFloat.pymul]
  · intro s q h1 h2 h3
    have hne := ne_empty_dash_of_contains h2 (by decide) (by decide)
    constructor
    · simp [normalize_amount, h1, h2, h3, pyFloatOr0, PyFloat.pydiv]
    · simp [convert_to_wan, hne, h1, h2, h3, pyFloatOr0]
  · intro s h
    rcases h with h1 | h1
    · have hne := ne_empty_dash_of_contains h1 (by decide) (by decide)
      simp [normalize_amount, convert_to_wan, hne, h1]
    · have hne := ne_empty_dash_of_contains h1 (by decide) (by decide)
      by_cases h2 : strContains (pyStrip s) '亿' = true
      · simp [normalize_amount, convert_to_wan, hne, h2]
      · simp only [Bool.not_eq_true] at h2
        simp [normalize_amount, convert_to_wan, hne, h1, h2, PyFloat.pydiv_pymul]

/-! ## The concurrent executor (claims C6, C10) -/

/-- Counting lemma: when every non-raising invocation returns a non-`None`
value, each submitted item contributes exactly one unit to either the
collected-result count or the raised count. -/
theorem pool_success_count (xs : List α) (w : α → WorkerOutcome β)
    (hok : ∀ a ∈ xs, (w a).isRaised = false → (w a).returnsSome = true) :
    (xs.filterMap (collectResult w)).length
      + (xs.filter fun a => (w a).isRaised).length = xs.length := by
  induction xs with
  | nil => rfl
  | cons x t ih =>
    have ht : ∀ a ∈ t, (w a).isRaised = false → (w a).returnsSome = true :=
      fun a ha => hok a (List.mem_cons_of_mem x ha)
    have ih' := ih ht
    cases hw : w x with
    | raised =>
      have hc : collectResult w x = none := by simp [collectResult, hw]
      have hr : (w x).isRaised = true := by rw [hw]; rfl
      simp only [List.filterMap_cons, hc, List.filter_cons, hr, if_true, List.length_cons]
      omega
    | value o =>
      have hr : (w x).isRaised = false := by rw [hw]; rfl
      cases o with
      | none =>
        have hs := hok x (List.mem_cons_self x t) hr
        rw [hw] at hs
        simp [WorkerOutcome.returnsSome] at hs
      | some b =>
        have hc : collectResult w x = some b := by simp [collectResult, hw]
        simp [List.filterMap_cons, hc, List.filter_cons, hr]
        omega

/-- **C6.** For a materialised list of `N` items whose worker raises on
exactly `M` of them and returns a non-`None` value on each of the others,
`run_with_thread_pool` collects exactly `N − M` results; every item is
submitted (a raising item never aborts the batch); and the collected results
are identical for `max_workers = 1` and any other worker count. -/
theorem C6_run_with_thread_pool_partial_failure (xs : List α)
    (worker_func : α → WorkerOutcome β) (M k : ℕ)
    (hM : (xs.filter fun a => (worker_func a).isRaised).length = M)
    (hok : ∀ a ∈ xs, (worker_func a).isRaised = false →
      (worker_func a).returnsSome = true) :
    (run_with_thread_pool (.list xs) worker_func k).results.length = xs.length - M ∧
    (run_with_thread_pool (.list xs) worker_func k).submitted = xs ∧
    (run_with_thread_pool (.list xs) worker_func 1).results =
      (run_with_thread_pool (.list xs) worker_func k).results := by
  refine ⟨?_, rfl, rfl⟩
  have h := pool_success_count xs worker_func hok
  subst hM
  show (xs.filterMap (collectResult worker_func)).length = _
  omega

/-- **C10.** Handing `run_with_thread_pool` a one-shot generator: the
`len(list(items))` count consumes it, so the later submission comprehension
sees an exhausted iterator — no item is ever submitted to a worker and the
result list is empty, for every worker function and worker count, even though
the computed `total` still reports the full element count. -/
theorem C10_generator_input_yields_empty (xs : List α)
    (worker_func : α → WorkerOutcome β) (k : ℕ) :
    (run_with_thread_pool (.gen xs) worker_func k).total = xs.length ∧
    (run_with_thread_pool (.gen xs) worker_func k).submitted = [] ∧
    (run_with_thread_pool (.gen xs) worker_func k).results = [] :=
  ⟨rfl, rfl, rfl⟩

/-! ## Round-trip of the cache serialisation (claim C7) -/

/-- A decimal digit character decodes to its digit. -/
theorem digitVal_decDigitChar {d : ℕ} (h : d < 10) : digitVal (decDigitChar d) = d := by
  interval_cases d <;> decide

/-- A decimal digit character is a digit. -/
theorem isDigit_decDigitChar {d : ℕ} (h : d < 10) : (decDigitChar d).isDigit = true := by
  interval_cases d <;> decide

/-- With enough fuel, the fuel-based digit printer produces exactly the
decimal digits of `n` (little-endian). -/
theorem natDigitsAux_eq (fuel n : ℕ) (h : n ≤ fuel) :
    natDigitsAux fuel n = (Nat.digits 10 n).map decDigitChar := by
  induction fuel generalizing n with
  | zero =>
    have hn : n = 0 := Nat.le_zero.mp h
    subst hn
    simp [natDigitsAux]
  | succ f ih =>
    cases n with
    | zero => simp [natDigitsAux]
    | succ m =>
      rw [natDigitsAux]
      rw [Nat.digits_def' (by norm_num : (1:ℕ) < 10) (Nat.succ_pos m), List.map_cons]
      have hdiv : (m + 1) / 10 ≤ f := by
        have := Nat.div_lt_self (Nat.succ_pos m) (by norm_num : 1 < 10)
        omega
      rw [ih ((m + 1) / 10) hdiv]

/-- The printed numeral of `n`. -/
theorem printNat_eq (n : ℕ) (h : n ≠ 0) :
    printNat n = ((Nat.digits 10 n).map decDigitChar).reverse := by
  rw [printNat, if_neg h, natDigitsAux_eq n n le_rfl]

/-- A printed numeral is never empty. -/
theorem printNat_ne_nil (n : ℕ) : printNat n ≠ [] := by
  by_cases h : n = 0
  · subst h; decide
  · rw [printNat_eq n h]
    simp [Nat.digits_ne_nil_iff_ne_zero.mpr h]

/-- Every character of a printed numeral is a digit. -/
theorem printNat_all_digits (n : ℕ) : ∀ c ∈ printNat n, c.isDigit = true := by
  by_cases h : n = 0
  · subst h; decide
  · rw [printNat_eq n h]
    intro c hc
    rw [List.mem_reverse] at hc
    obtain ⟨d, hd, rfl⟩ := List.mem_map.mp hc
    exact isDigit_decDigitChar (Nat.digits_lt_base (by norm_num) hd)

/-- Printing then parsing a natural number is the identity. -/
theorem parseNat_printNat (n : ℕ) : parseNat (printNat n) = some n := by
  by_cases h : n = 0
  · subst h; decide
  · rw [parseNat, if_pos ⟨printNat_ne_nil n, List.all_eq_true.mpr (printNat_all_digits n)⟩]
    rw [printNat_eq n h]
    congr 1
    rw [List.map_reverse, List.reverse_reverse, List.map_map]
    have hmap : (Nat.digits 10 n).map (digitVal ∘ decDigitChar) = Nat.digits 10 n :=
      calc (Nat.digits 10 n).map (digitVal ∘ decDigitChar)
          = (Nat.digits 10 n).map id := List.map_congr_left
            (fun d hd => digitVal_decDigitChar (Nat.digits_lt_base (by norm_num) hd))
        _ = Nat.digits 10 n := List.map_id _
    rw [hmap, Nat.ofDigits_digits]

/-- Printing then parsing an integer is the identity. -/
theorem parseInt_printInt (n : ℤ) : parseInt (printInt n) = some n := by
  rw [printInt]
  by_cases h : n < 0
  · rw [if_pos h, parseInt, List.head?_cons, if_pos rfl, List.tail_cons, parseNat_printNat,
      Option.map_some']
    have hn : -Int.ofNat n.natAbs = n := by rw [Int.ofNat_eq_natCast]; omega
    rw [hn]
  · rw [if_neg h]
    have hd : ¬ (printNat n.natAbs).head? = some '-' := by
      intro hc
      have hmem : '-' ∈ printNat n.natAbs := by
        cases hp : printNat n.natAbs with
        | nil => exact absurd hp (printNat_ne_nil _)
        | cons c t =>
          rw [hp] at hc
          simp only [List.head?_cons, Option.some_inj] at hc
          rw [hc] at *
          exact List.mem_cons_self _ _
      have := printNat_all_digits n.natAbs '-' hmem
      simp at this
    rw [parseInt, if_neg hd, parseNat_printNat, Option.map_some']
    have hn : Int.ofNat n.natAbs = n := by rw [Int.ofNat_eq_natCast]; omega
    rw [hn]

/-- `takeWhile`/`dropWhile` split an append at the first failing element. -/
theorem takeWhile_dropWhile_middle {α : Type} (p : α → Bool) (l1 : List α) (c : α)
    (l2 : List α) (h : ∀ x ∈ l1, p x = true) (hc : p c = false) :
    (l1 ++ c :: l2).takeWhile p = l1 ∧ (l1 ++ c :: l2).dropWhile p = c :: l2 := by
  induction l1 with
  | nil => simp [List.takeWhile_cons, List.dropWhile_cons, hc]
  | cons a t ih =>
    have ha : p a = true := h a (List.mem_cons_self a t)
    obtain ⟨h1, h2⟩ := ih (fun x hx => h x (List.mem_cons_of_mem a hx))
    simp [List.takeWhile_cons, List.dropWhile_cons, ha, h1, h2]

/-- No character of a printed integer is a slash. -/
theorem printInt_no_slash (n : ℤ) : ∀ c ∈ printInt n, (decide (c ≠ '/')) = true := by
  intro c hc
  rw [printInt] at hc
  have hdig : c.isDigit = true → (decide (c ≠ '/')) = true := by
    intro hd
    simp only [decide_eq_true_eq]
    intro hcon
    subst hcon
    exact absurd hd (by decide)
  by_cases h : n < 0
  · rw [if_pos h] at hc
    rcases List.mem_cons.mp hc with rfl | hc2
    · decide
    · exact hdig (printNat_all_digits _ c hc2)
  · rw [if_neg h] at hc
    exact hdig (printNat_all_digits _ c hc)

/-- The slash is present in every printed rational. -/
theorem slash_mem_printQ (q : ℚ) : '/' ∈ printQ q := by
  rw [printQ]
  exact List.mem_append_right _ (List.mem_cons_self _ _)

/-- Printing then parsing a rational is the identity. -/
theorem parseQ_printQ (q : ℚ) : parseQ (printQ q) = some q := by
  obtain ⟨h1, h2⟩ := takeWhile_dropWhile_middle (fun c => decide (c ≠ '/'))
    (printInt q.num) '/' (printNat q.den) (printInt_no_slash q.num) (by decide)
  rw [parseQ, printQ]
  rw [show (printInt q.num ++ '/' :: printNat q.den).takeWhile (fun c => decide (c ≠ '/'))
      = printInt q.num from h1]
  rw [show (printInt q.num ++ '/' :: printNat q.den).dropWhile (fun c => decide (c ≠ '/'))
      = '/' :: printNat q.den from h2]
  rw [parseInt_printInt]
  simp [parseNat_printNat, q.den_nz, Rat.num_div_den]

/-- Printing then parsing a float cell is the identity. -/
theorem parseCellPF_printCellPF (x : PyFloat) : parseCellPF (printCellPF x) = some x := by
  cases x with
  | pnan => decide
  | pinf b => cases b <;> decide
  | pnum q =>
    have hslash : '/' ∈ printQ q := slash_mem_printQ q
    rw [printCellPF, parseCellPF]
    rw [if_neg ?h1, if_neg ?h2, if_neg ?h3]
    case h1 =>
      intro hc
      have : '/' ∈ ("" : String).data := by
        rw [← congrArg String.data hc]; exact hslash
      simp at this
    case h2 =>
      intro hc
      have : '/' ∈ ("inf" : String).data := by
        rw [← congrArg String.data hc]; exact hslash
      exact absurd this (by decide)
    case h3 =>
      intro hc
      have : '/' ∈ ("-inf" : String).data := by
        rw [← congrArg String.data hc]; exact hslash
      exact absurd this (by decide)
    show (parseQ (printQ q)).map PyFloat.pnum = some (.pnum q)
    rw [parseQ_printQ, Option.map_some']

/-- Printing then parsing a NaN-free numeric cell is the identity. -/
theorem parseCellQ_printCellQ (v : ℚ) : parseCellQ (printCellQ v) = some v := by
  show parseQ (printQ v) = some v
  exact parseQ_printQ v

/-- The serialised cells of a row are 22 and all parse. -/
theorem serializeRow_valid (x : ResultRow) :
    ((serializeRow x).length = 22 && rowCellsValid (serializeRow x)) = true := by
  simp [serializeRow, rowCellsValid, cellAt, parseCellPF_printCellPF, parseCellQ_printCellQ]

/-- Printing then parsing one row is the identity. -/
theorem parseRow_serializeRow (x : ResultRow) : parseRow (serializeRow x) = some x := by
  rw [parseRow, if_pos (serializeRow_valid x)]
  have hrow : rowOfCells (serializeRow x) = x := by
    simp [rowOfCells, serializeRow, cellAt, parseCellPF_printCellPF, parseCellQ_printCellQ]
  rw [hrow]

/-- Printing then parsing every data line is the identity. -/
theorem parseRows_serialize (t : List ResultRow) :
    parseRows (t.map serializeRow) = some t := by
  induction t with
  | nil => rfl
  | cons x rest ih =>
    rw [List.map_cons, parseRows, parseRow_serializeRow, ih]

/-- Inversion of a successful `run_analysis` call into its three `.ok`
paths: cache hit, missing instant window, or full computation. -/
theorem run_analysis_ok_cases {cached : Option (List (List String))}
    {now : List InstantRow} {d3 d5 d10 d20 : List TrailingRow}
    {turnover : List TurnoverRow} {bd : List String} {out : AnalysisOutcome}
    (h : run_analysis cached now d3 d5 d10 d20 turnover bd = .ok out) :
    (∃ t, cached.bind parseTable = some t ∧ out = ⟨t, none⟩) ∨
    (cached.bind parseTable = none ∧ now = [] ∧ out = ⟨[], none⟩) ∨
    (cached.bind parseTable = none ∧ now ≠ [] ∧
      d3 ≠ [] ∧ d5 ≠ [] ∧ d10 ≠ [] ∧ d20 ≠ [] ∧
      out = ⟨sortByTrend (scoreRows (pipelineRows now d3 d5 d10 d20 turnover bd)),
        some (serializeTable
          (sortByTrend (scoreRows (pipelineRows now d3 d5 d10 d20 turnover bd))))⟩) := by
  rw [run_analysis] at h
  cases hc : cached.bind parseTable with
  | some t =>
    rw [hc] at h
    simp only [Except.ok.injEq] at h
    exact Or.inl ⟨t, rfl, h.symm⟩
  | none =>
    rw [hc] at h
    by_cases h0 : now = []
    · rw [if_pos h0] at h
      simp only [Except.ok.injEq] at h
      exact Or.inr (Or.inl ⟨rfl, h0, h.symm⟩)
    · rw [if_neg h0] at h
      by_cases h3 : d3 = []
      · rw [if_pos h3] at h; exact absurd h (by simp)
      · rw [if_neg h3] at h
        by_cases h5 : d5 = []
        · rw [if_pos h5] at h; exact absurd h (by simp)
        · rw [if_neg h5] at h
          by_cases h10 : d10 = []
          · rw [if_pos h10] at h; exact absurd h (by simp)
          · rw [if_neg h10] at h
            by_cases h20 : d20 = []
            · rw [if_pos h20] at h; exact absurd h (by simp)
            · rw [if_neg h20] at h
              simp only [Except.ok.injEq] at h
              exact Or.inr (Or.inr ⟨rfl, h0, h3, h5, h10, h20, h.symm⟩)

/-- **C7.** Cache round-trip: serialising any final table to the daily cache
file and parsing it back yields exactly the same table — hence the same row
ranking (same industries in the same order) and the same signal label on every
row.  Moreover, in every run of `run_analysis` that writes a cache file, the
written file parses back to precisely the table the run returned. -/
theorem C7_cache_roundtrip (t : List ResultRow) :
    parseTable (serializeTable t) = some t ∧
    (parseTable (serializeTable t)).map (fun s => s.map (fun r => r.row.industry)) =
      some (t.map (fun r => r.row.industry)) ∧
    (parseTable (serializeTable t)).map (fun s => s.map (fun r => r.signal)) =
      some (t.map (fun r => r.signal)) ∧
    (∀ (cached : Option (List (List String))) (now : List InstantRow)
        (d3 d5 d10 d20 : List TrailingRow) (turnover : List TurnoverRow)
        (bd : List String) (out : AnalysisOutcome),
      run_analysis cached now d3 d5 d10 d20 turnover bd = .ok out →
      ∀ f ∈ out.cacheWrite, parseTable f = some out.table) := by
  have hrt : ∀ s : List ResultRow, parseTable (serializeTable s) = some s := by
    intro s
    rw [serializeTable, parseTable]
    exact parseRows_serialize s
  refine ⟨hrt t, by rw [hrt t, Option.map_some'], by rw [hrt t, Option.map_some'], ?_⟩
  intro cached now d3 d5 d10 d20 turnover bd out h f hf
  rcases run_analysis_ok_cases h with ⟨u, _, rfl⟩ | ⟨_, _, rfl⟩ | ⟨_, _, _, _, _, _, rfl⟩
  · simp at hf
  · simp at hf
  · simp only [Option.mem_def, Option.some_inj] at hf
    rw [← hf]
    exact hrt _

/-! ## Claims C1, C2, C3 -/

/-- Membership under sorted insertion. -/
theorem mem_insertByTrend {x a : ResultRow} {l : List ResultRow} :
    a ∈ insertByTrend x l ↔ a = x ∨ a ∈ l := by
  induction l with
  | nil => simp [insertByTrend]
  | cons y t ih =>
    rw [insertByTrend]
    split_ifs
    · simp
    · simp only [List.mem_cons, ih]
      tauto

/-- Sorting permutes, so membership in the sorted table is membership in the
scored frame. -/
theorem mem_sortByTrend {l : List ResultRow} {x : ResultRow} :
    x ∈ sortByTrend l ↔ x ∈ l := by
  induction l with
  | nil => simp [sortByTrend]
  | cons y t ih =>
    rw [sortByTrend, mem_insertByTrend, ih]
    simp

/-- **C1 (what the code actually does at the claimed degraded run).**  With
the instant window present but the 3-day window fetch failed (empty dataset),
`run_analysis` raises `KeyError('净额_3d')` in the fill loop — it produces no
result table at all, instead of continuing with 0.0 defaults. -/
theorem C1_missing_window_raises :
    run_analysis none
      [{ industry := "电源设备", indexVal := .pnum 1000, pctNow := .pnum 2,
         netNow := 5, inflow := 8, leadStock := "阳光电源", leadPct := .pnum 4 }]
      []
      [{ industry := "电源设备", net := 3, stagePct := .pnum 1 }]
      [{ industry := "电源设备", net := 4, stagePct := .pnum 2 }]
      [{ industry := "电源设备", net := 5, stagePct := .pnum 3 }]
      [{ industry := "电源设备", turnover := .pnum 7 }]
      [] = .error "KeyError: 净额_3d" := rfl

/-- **C3.** Without the mandatory instant-window dataset, `run_analysis`
returns an empty result immediately and writes no cache file, whatever the
other window and enrichment fetches would have yielded. -/
theorem C3_missing_instant_aborts (d3 d5 d10 d20 : List TrailingRow)
    (turnover : List TurnoverRow) (bd : List String) :
    run_analysis none [] d3 d5 d10 d20 turnover bd =
      .ok { table := [], cacheWrite := none } := rfl

/-- **C2.** The signal of every computed row is produced by the fixed-order
first-match-wins rule list of §4.6: the classifier equals the ordered-rule
evaluator, every emitted label is one of the five, rule 1 wins whenever rules
1 and 3 both hold, and every row of every computed `run_analysis` table
carries exactly the label the classifier assigns to its own four scores and
big-deal flag. -/
theorem C2_signal_classifier :
    (∀ (money price turn trend : PyFloat) (bigDeal : String),
      signalFor money price turn trend bigDeal =
        firstMatch (signalRules money price turn trend bigDeal) "观望区间") ∧
    (∀ (money price turn trend : PyFloat) (bigDeal : String),
      signalFor money price turn trend bigDeal ∈
        ["资金主攻", "退潮预警", "黄金坑潜入", "低位强异动", "观望区间"]) ∧
    (∀ (money price turn trend : PyFloat) (bigDeal : String),
      trend.gtQ 85 = true →
      (money.gtQ 75 && price.ltQ 50 && turn.gtQ 60) = true →
      signalFor money price turn trend bigDeal = "资金主攻") ∧
    (∀ (now : List InstantRow) (d3 d5 d10 d20 : List TrailingRow)
        (turnover : List TurnoverRow) (bd : List String) (out : AnalysisOutcome),
      run_analysis none now d3 d5 d10 d20 turnover bd = .ok out →
      ∀ row ∈ out.table,
        row.signal = signalFor row.moneyScore row.priceScore row.turnScore
          row.trendScore row.row.bigDeal) := by
  refine ⟨fun m p t tr bd => rfl, ?_, ?_, ?_⟩
  · intro m p t tr bd
    rw [signalFor]
    split_ifs <;> simp
  · intro m p t tr bd h1 _
    rw [signalFor, if_pos h1]
  · intro now d3 d5 d10 d20 turnover bd out h row hrow
    rcases run_analysis_ok_cases h with ⟨u, hu, rfl⟩ | ⟨_, _, rfl⟩ | ⟨_, _, _, _, _, _, rfl⟩
    · simp at hu
    · simp at hrow
    · have hrow' : row ∈ scoreRows (pipelineRows now d3 d5 d10 d20 turnover bd) :=
        mem_sortByTrend.mp hrow
      obtain ⟨r, _, rfl⟩ := List.mem_map.mp hrow'
      rfl

/-! ## Tracing rows through the merge stages (claims C4, C5) -/

/-- Inversion of one (conditional) trailing-window merge stage: each output
row is an input row, either untouched or updated with a matched
(`pnum`) or unmatched (`pnan`) net/pct pair. -/
theorem mem_windowStage {l : List MergedRow} {t : List TrailingRow} {c : Prop}
    [Decidable c] {upd : MergedRow → PyFloat → PyFloat → MergedRow} {x : MergedRow}
    (hx : x ∈ (if c then mergeWindow l t upd else l)) :
    ∃ y ∈ l, (x = y ∨ ∃ n p, (n = PyFloat.pnan ∨ ∃ q, n = PyFloat.pnum q) ∧
      x = upd y n p) := by
  by_cases hc : c
  · rw [if_pos hc, mergeWindow] at hx
    obtain ⟨y, hy, hxy⟩ := List.mem_map.mp hx
    cases hf : t.find? (fun tr => tr.industry = y.industry) with
    | some tr =>
      rw [hf] at hxy
      exact ⟨y, hy, Or.inr ⟨_, _, Or.inr ⟨tr.net, rfl⟩, hxy.symm⟩⟩
    | none =>
      rw [hf] at hxy
      exact ⟨y, hy, Or.inr ⟨_, _, Or.inl rfl, hxy.symm⟩⟩
  · rw [if_neg hc] at hx
    exact ⟨x, hx, Or.inl rfl⟩

/-- Inversion of the turnover stage (merge or 0.0 fallback): only the
`换手率` column of each row changes. -/
theorem mem_turnoverStage {l : List MergedRow} {t : List TurnoverRow} {c : Prop}
    [Decidable c] {x : MergedRow}
    (hx : x ∈ (if c then mergeTurnover l t
      else l.map (fun r => { r with turnover := PyFloat.pnum 0 }))) :
    ∃ y ∈ l, ∃ v, x = { y with turnover := v } := by
  by_cases hc : c
  · rw [if_pos hc, mergeTurnover] at hx
    obtain ⟨y, hy, hxy⟩ := List.mem_map.mp hx
    cases hf : t.find? (fun tr => tr.industry = y.industry) with
    | some tr => rw [hf] at hxy; exact ⟨y, hy, _, hxy.symm⟩
    | none => rw [hf] at hxy; exact ⟨y, hy, _, hxy.symm⟩
  · rw [if_neg hc] at hx
    obtain ⟨y, hy, hxy⟩ := List.mem_map.mp hx
    exact ⟨y, hy, _, hxy.symm⟩

/-- `fillna(0.0)` of a NaN-or-finite value is finite. -/
theorem fillnaPF_pnum {v : PyFloat} (h : v = PyFloat.pnan ∨ ∃ q, v = PyFloat.pnum q) :
    ∃ q, fillnaPF v = PyFloat.pnum q := by
  rcases h with rfl | ⟨q, rfl⟩
  · exact ⟨0, rfl⟩
  · exact ⟨q, rfl⟩

/-- Every row of the merged-and-filled frame descends from an instant-window
row: it keeps that row's industry key and instant price change, and its four
trailing net-flow columns are genuine (non-NaN, finite) numbers. -/
theorem pipelineRows_fields
    (now : List InstantRow) (d3 d5 d10 d20 : List TrailingRow)
    (turnover : List TurnoverRow) (bd : List String) :
    ∀ x ∈ pipelineRows now d3 d5 d10 d20 turnover bd,
      ∃ r0 ∈ now, x.industry = r0.industry ∧ x.pctNow = r0.pctNow ∧
        (∃ q, x.net3d = PyFloat.pnum q) ∧ (∃ q, x.net5d = PyFloat.pnum q) ∧
        (∃ q, x.net10d = PyFloat.pnum q) ∧ (∃ q, x.net20d = PyFloat.pnum q) := by
  intro x hx
  simp only [pipelineRows] at hx
  obtain ⟨y6, hy6, rfl⟩ := List.mem_map.mp hx
  obtain ⟨y5, hy5, rfl⟩ := List.mem_map.mp hy6
  obtain ⟨y4, hy4, v, rfl⟩ := mem_turnoverStage hy5
  obtain ⟨y3, hy3, h4⟩ := mem_windowStage hy4
  obtain ⟨y2, hy2, h3⟩ := mem_windowStage hy3
  obtain ⟨y1, hy1, h2⟩ := mem_windowStage hy2
  obtain ⟨y0, hy0, h1⟩ := mem_windowStage hy1
  obtain ⟨r0, hr0, rfl⟩ := List.mem_map.mp hy0
  have f1 : y1.industry = r0.industry ∧ y1.pctNow = r0.pctNow ∧
      (y1.net3d = PyFloat.pnan ∨ ∃ q, y1.net3d = PyFloat.pnum q) ∧
      y1.net5d = PyFloat.pnan ∧ y1.net10d = PyFloat.pnan ∧
      y1.net20d = PyFloat.pnan := by
    rcases h1 with rfl | ⟨n, p, hn, rfl⟩
    · exact ⟨rfl, rfl, Or.inl rfl, rfl, rfl, rfl⟩
    · exact ⟨rfl, rfl, hn, rfl, rfl, rfl⟩
  have f2 : y2.industry = r0.industry ∧ y2.pctNow = r0.pctNow ∧
      (y2.net3d = PyFloat.pnan ∨ ∃ q, y2.net3d = PyFloat.pnum q) ∧
      (y2.net5d = PyFloat.pnan ∨ ∃ q, y2.net5d = PyFloat.pnum q) ∧
      y2.net10d = PyFloat.pnan ∧ y2.net20d = PyFloat.pnan := by
    rcases h2 with rfl | ⟨n, p, hn, rfl⟩
    · exact ⟨f1.1, f1.2.1, f1.2.2.1, Or.inl f1.2.2.2.1, f1.2.2.2.2.1, f1.2.2.2.2.2⟩
    · exact ⟨f1.1, f1.2.1, f1.2.2.1, hn, f1.2.2.2.2.1, f1.2.2.2.2.2⟩
  have f3 : y3.industry = r0.industry ∧ y3.pctNow = r0.pctNow ∧
      (y3.net3d = PyFloat.pnan ∨ ∃ q, y3.net3d = PyFloat.pnum q) ∧
      (y3.net5d = PyFloat.pnan ∨ ∃ q, y3.net5d = PyFloat.pnum q) ∧
      (y3.net10d = PyFloat.pnan ∨ ∃ q, y3.net10d = PyFloat.pnum q) ∧
      y3.net20d = PyFloat.pnan := by
    rcases h3 with rfl | ⟨n, p, hn, rfl⟩
    · exact ⟨f2.1, f2.2.1, f2.2.2.1, f2.2.2.2.1, Or.inl f2.2.2.2.2.1, f2.2.2.2.2.2⟩
    · exact ⟨f2.1, f2.2.1, f2.2.2.1, f2.2.2.2.1, hn, f2.2.2.2.2.2⟩
  have f4 : y4.industry = r0.industry ∧ y4.pctNow = r0.pctNow ∧
      (y4.net3d = PyFloat.pnan ∨ ∃ q, y4.net3d = PyFloat.pnum q) ∧
      (y4.net5d = PyFloat.pnan ∨ ∃ q, y4.net5d = PyFloat.pnum q) ∧
      (y4.net10d = PyFloat.pnan ∨ ∃ q, y4.net10d = PyFloat.pnum q) ∧
      (y4.net20d = PyFloat.pnan ∨ ∃ q, y4.net20d = PyFloat.pnum q) := by
    rcases h4 with rfl | ⟨n, p, hn, rfl⟩
    · exact ⟨f3.1, f3.2.1, f3.2.2.1, f3.2.2.2.1, f3.2.2.2.2.1, Or.inl f3.2.2.2.2.2⟩
    · exact ⟨f3.1, f3.2.1, f3.2.2.1, f3.2.2.2.1, f3.2.2.2.2.1, hn⟩
  exact ⟨r0, hr0, f4.1, f4.2.1,
    fillnaPF_pnum f4.2.2.1, fillnaPF_pnum f4.2.2.2.1,
    fillnaPF_pnum f4.2.2.2.2.1, fillnaPF_pnum f4.2.2.2.2.2⟩

/-- **C5.** Every industry in a computed `run_analysis` table comes from the
instant-window dataset: an industry present only in a trailing window or in
the enrichment data never reaches the output (left joins onto the instant
base only). -/
theorem C5_output_industries_from_instant
    (now : List InstantRow) (d3 d5 d10 d20 : List TrailingRow)
    (turnover : List TurnoverRow) (bd : List String) (out : AnalysisOutcome)
    (h : run_analysis none now d3 d5 d10 d20 turnover bd = .ok out) :
    ∀ row ∈ out.table, row.row.industry ∈ now.map InstantRow.industry := by
  intro row hrow
  rcases run_analysis_ok_cases h with ⟨u, hu, rfl⟩ | ⟨_, _, rfl⟩ | ⟨_, _, _, _, _, _, rfl⟩
  · simp at hu
  · simp at hrow
  · have hrow' := mem_sortByTrend.mp hrow
    obtain ⟨r, hr, rfl⟩ := List.mem_map.mp hrow'
    obtain ⟨r0, hr0, hind, _⟩ := pipelineRows_fields now d3 d5 d10 d20 turnover bd r hr
    show r.industry ∈ _
    rw [hind]
    exact List.mem_map_of_mem InstantRow.industry hr0

/-! ## Percentile-rank bounds (claim C4) -/

/-- NaN is below nothing. -/
theorem PyFloat.plt_left_nan (b : PyFloat) : PyFloat.plt .pnan b = false := by
  cases b <;> rfl

/-- Nothing is below NaN. -/
theorem PyFloat.plt_right_nan (a : PyFloat) : PyFloat.plt a .pnan = false := by
  cases a with
  | pnan => rfl
  | pinf c => cases c <;> rfl
  | pnum q => rfl

/-- A strict IEEE comparison only succeeds between non-NaN values. -/
theorem PyFloat.isNotNan_of_plt {a b : PyFloat} (h : PyFloat.plt a b = true) :
    a.isNotNan = true ∧ b.isNotNan = true := by
  constructor
  · cases a with
    | pnan => rw [PyFloat.plt_left_nan] at h; simp at h
    | pinf c => rfl
    | pnum q => rfl
  · cases b with
    | pnan => rw [PyFloat.plt_right_nan] at h; simp at h
    | pinf c => rfl
    | pnum q => rfl

/-- IEEE equality implies structural equality. -/
theorem PyFloat.eq_of_pyEq {a b : PyFloat} (h : a.pyEq b = true) : a = b := by
  cases a <;> cases b <;> simp_all [PyFloat.pyEq]

/-- A non-NaN value is IEEE-equal to itself. -/
theorem PyFloat.pyEq_self {a : PyFloat} (h : a.isNotNan = true) : a.pyEq a = true := by
  cases a with
  | pnan => simp [PyFloat.isNotNan] at h
  | pinf c => simp [PyFloat.pyEq]
  | pnum q => simp [PyFloat.pyEq]

/-- IEEE strict `<` is irreflexive. -/
theorem PyFloat.plt_irrefl (a : PyFloat) : a.plt a = false := by
  cases a with
  | pnan => rfl
  | pinf c => cases c <;> rfl
  | pnum q => simp [PyFloat.plt]

/-- Two disjoint boolean predicates, each contained in a third, count at most
as much as the third. -/
theorem countP_two_le {α : Type} (l : List α) (f g H : α → Bool)
    (hf : ∀ x ∈ l, f x = true → H x = true)
    (hg : ∀ x ∈ l, g x = true → H x = true)
    (hfg : ∀ x ∈ l, ¬(f x = true ∧ g x = true)) :
    l.countP f + l.countP g ≤ l.countP H := by
  induction l with
  | nil => simp
  | cons y t ih =>
    have iht := ih (fun x hx => hf x (List.mem_cons_of_mem y hx))
      (fun x hx => hg x (List.mem_cons_of_mem y hx))
      (fun x hx => hfg x (List.mem_cons_of_mem y hx))
    rw [List.countP_cons, List.countP_cons, List.countP_cons]
    have hy := hfg y (List.mem_cons_self y t)
    by_cases hfy : f y = true
    · have hHy := hf y (List.mem_cons_self y t) hfy
      have hgy : ¬ g y = true := fun hgy => hy ⟨hfy, hgy⟩
      rw [if_pos hfy, if_pos hHy, if_neg hgy]
      omega
    · by_cases hgy : g y = true
      · have hHy := hg y (List.mem_cons_self y t) hgy
        rw [if_neg hfy, if_pos hgy, if_pos hHy]
        omega
      · rw [if_neg hfy, if_neg hgy]
        split_ifs <;> omega

/-- Numeric bounds of an average-rank percentile: with at least one tied
element and the counted groups inside the non-NaN population, the score lies
in `[0, 100]`. -/
theorem rank_val_bounds {a e m : ℕ} (he : 1 ≤ e) (ham : a + e ≤ m) :
    0 ≤ ((a : ℚ) + ((e : ℚ) + 1) / 2) / (m : ℚ) * 100 ∧
    ((a : ℚ) + ((e : ℚ) + 1) / 2) / (m : ℚ) * 100 ≤ 100 := by
  have hm1 : 1 ≤ m := le_trans he (le_trans (Nat.le_add_left e a) ham)
  have hmq : (1:ℚ) ≤ (m:ℚ) := by exact_mod_cast hm1
  have heq : (1:ℚ) ≤ (e:ℚ) := by exact_mod_cast he
  have hamq : (a:ℚ) + (e:ℚ) ≤ (m:ℚ) := by exact_mod_cast ham
  have haq : (0:ℚ) ≤ (a:ℚ) := Nat.cast_nonneg a
  constructor
  · positivity
  · rw [div_mul_eq_mul_div, div_le_iff₀ (by linarith : (0:ℚ) < (m:ℚ))]
    linarith

/-- The rank-based score of any non-NaN entry of its column is a number in
`[0, 100]`. -/
theorem rankPctScore_inIcc {asc : Bool} {col : List PyFloat} {v : PyFloat}
    (hv : v.isNotNan = true) (hmem : v ∈ col) :
    (rankPctScore asc col v).inIcc 0 100 := by
  have hne : v ≠ .pnan := by
    intro hveq
    rw [hveq] at hv
    exact absurd hv (by decide)
  have heq : rankPctScore asc col v = .pnum
      ((((col.filter (fun w => if asc then w.plt v else v.plt w)).length : ℚ) +
        (((col.filter (fun w => w.pyEq v)).length : ℚ) + 1) / 2) /
        ((col.filter PyFloat.isNotNan).length : ℚ) * 100) := by
    cases v with
    | pnan => exact absurd rfl hne
    | pinf b => rfl
    | pnum q => rfl
  rw [heq]
  have he : 1 ≤ (col.filter (fun w => w.pyEq v)).length := by
    have hvmem : v ∈ col.filter (fun w => w.pyEq v) :=
      List.mem_filter.mpr ⟨hmem, PyFloat.pyEq_self hv⟩
    exact List.length_pos.mpr (List.ne_nil_of_mem hvmem)
  have ham : (col.filter (fun w => if asc then w.plt v else v.plt w)).length +
      (col.filter (fun w => w.pyEq v)).length ≤
      (col.filter PyFloat.isNotNan).length := by
    rw [← List.countP_eq_length_filter, ← List.countP_eq_length_filter,
      ← List.countP_eq_length_filter]
    apply countP_two_le
    · intro x _ hx
      cases asc with
      | true =>
        rw [if_pos rfl] at hx
        exact (PyFloat.isNotNan_of_plt hx).1
      | false =>
        rw [if_neg (by decide)] at hx
        exact (PyFloat.isNotNan_of_plt hx).2
    · intro x _ hx
      rw [PyFloat.eq_of_pyEq hx]
      exact hv
    · intro x _ hx
      obtain ⟨hx1, hx2⟩ := hx
      rw [PyFloat.eq_of_pyEq hx2] at hx1
      cases asc <;> simp [PyFloat.plt_irrefl] at hx1
  exact rank_val_bounds he ham

/-- Rounding a rational in `[0, 100]` to two decimals stays in `[0, 100]`. -/
theorem round2_bounds {s : ℚ} (h0 : 0 ≤ s) (h1 : s ≤ 100) :
    0 ≤ ((round (s * 100) : ℤ) : ℚ) / 100 ∧
    ((round (s * 100) : ℤ) : ℚ) / 100 ≤ 100 := by
  have hfl : round (s * 100) = ⌊s * 100 + 1/2⌋ := round_eq _
  have hlow : (0:ℤ) ≤ round (s * 100) := by
    rw [hfl]
    exact Int.le_floor.mpr (by push_cast; linarith)
  have hhigh : round (s * 100) ≤ 10000 := by
    rw [hfl]
    have hle := Int.floor_le (s * 100 + 1/2)
    by_contra hcon
    push_neg at hcon
    have hc : ((10001:ℤ):ℚ) ≤ ((⌊s * 100 + 1/2⌋ : ℤ) : ℚ) := by exact_mod_cast hcon
    push_cast at hc
    linarith
  have hl : (0:ℚ) ≤ ((round (s * 100) : ℤ) : ℚ) := by exact_mod_cast hlow
  have hh : ((round (s * 100) : ℤ) : ℚ) ≤ 10000 := by exact_mod_cast hhigh
  constructor <;> linarith

/-- The trend score of two `[0, 100]` scores is in `[0, 100]`. -/
theorem trend_round_inIcc {m p : PyFloat} (hm : m.inIcc 0 100) (hp : p.inIcc 0 100) :
    (round2 ((m.pymul (5/10)).padd (p.pymul (5/10)))).inIcc 0 100 := by
  cases m with
  | pnan => exact hm.elim
  | pinf b => exact hm.elim
  | pnum a =>
    cases p with
    | pnan => exact hp.elim
    | pinf b => exact hp.elim
    | pnum b =>
      obtain ⟨ha0, ha1⟩ := hm
      obtain ⟨hb0, hb1⟩ := hp
      show 0 ≤ ((round ((a * (5/10) + b * (5/10)) * 100) : ℤ) : ℚ) / 100 ∧
        ((round ((a * (5/10) + b * (5/10)) * 100) : ℤ) : ℚ) / 100 ≤ 100
      exact round2_bounds (by linarith) (by linarith)

/-- A row whose four trailing net columns are finite numbers has a finite
money-score base. -/
theorem moneyBase_pnum {r : MergedRow}
    (h3 : ∃ q, r.net3d = PyFloat.pnum q) (h5 : ∃ q, r.net5d = PyFloat.pnum q)
    (h10 : ∃ q, r.net10d = PyFloat.pnum q) (h20 : ∃ q, r.net20d = PyFloat.pnum q) :
    ∃ q, moneyBase r = PyFloat.pnum q := by
  obtain ⟨q3, e3⟩ := h3
  obtain ⟨q5, e5⟩ := h5
  obtain ⟨q10, e10⟩ := h10
  obtain ⟨q20, e20⟩ := h20
  rw [moneyBase, e3, e5, e10, e20]
  exact ⟨_, rfl⟩

/-- **C4 (amended).** In every computed `run_analysis` table — including runs
whose turnover dataset matched only some industries — provided the instant
price-change of every input row is a number (not NaN), the money, price and
trend scores of every output row lie in the closed interval `[0, 100]`; and
the turnover score of each individual row whose merged `换手率` is an actual
number also lies in `[0, 100]` (in particular of every row whenever the
turnover fetch failed entirely, which defaults every turnover to 0.0).  (The
amendment is forced by the left-joined turnover column: an industry missing
from a non-empty turnover dataset keeps a NaN turnover, and pandas' rank
propagates that NaN into its 换手分 — see the counterexample.) -/
theorem C4_scores_in_range
    (now : List InstantRow) (d3 d5 d10 d20 : List TrailingRow)
    (turnover : List TurnoverRow) (bd : List String) (out : AnalysisOutcome)
    (h : run_analysis none now d3 d5 d10 d20 turnover bd = .ok out)
    (hpct : ∀ r ∈ now, r.pctNow.isNotNan = true) :
    ∀ row ∈ out.table,
      row.moneyScore.inIcc 0 100 ∧ row.priceScore.inIcc 0 100 ∧
      row.trendScore.inIcc 0 100 ∧
      (row.row.turnover.isNotNan = true → row.turnScore.inIcc 0 100) := by
  intro row hrow
  rcases run_analysis_ok_cases h with ⟨u, hu, hout⟩ | ⟨_, _, hout⟩ | ⟨_, _, _, _, _, _, hout⟩
  · simp at hu
  · subst hout; simp at hrow
  · subst hout
    have hrow' := mem_sortByTrend.mp hrow
    obtain ⟨r, hr, hrowe⟩ := List.mem_map.mp hrow'
    obtain ⟨r0, hr0, _, hpcteq, hn3, hn5, hn10, hn20⟩ :=
      pipelineRows_fields now d3 d5 d10 d20 turnover bd r hr
    have hmoney : ((scoredOf (pipelineRows now d3 d5 d10 d20 turnover bd) r).moneyScore).inIcc 0 100 := by
      obtain ⟨qm, hqm⟩ := moneyBase_pnum hn3 hn5 hn10 hn20
      have hvm : (moneyBase r).isNotNan = true := by rw [hqm]; rfl
      exact rankPctScore_inIcc hvm (List.mem_map_of_mem moneyBase hr)
    have hprice : ((scoredOf (pipelineRows now d3 d5 d10 d20 turnover bd) r).priceScore).inIcc 0 100 := by
      have hvp : r.pctNow.isNotNan = true := by rw [hpcteq]; exact hpct r0 hr0
      exact rankPctScore_inIcc hvp (List.mem_map_of_mem (fun y => y.pctNow) hr)
    have htrend : ((scoredOf (pipelineRows now d3 d5 d10 d20 turnover bd) r).trendScore).inIcc 0 100 :=
      trend_round_inIcc hmoney hprice
    have hturnS : r.turnover.isNotNan = true →
        ((scoredOf (pipelineRows now d3 d5 d10 d20 turnover bd) r).turnScore).inIcc 0 100 :=
      fun hturnv => rankPctScore_inIcc hturnv (List.mem_map_of_mem (fun y => y.turnover) hr)
    rw [← hrowe]
    exact ⟨hmoney, hprice, htrend, hturnS⟩

/-! ## Counterexamples and concrete witnesses

The `Rat` arithmetic operations of the library are `@[irreducible]` by
default; they are made semireducible locally so that the concrete runs below
evaluate inside `decide`. -/

section

attribute [local semireducible] Rat.mul Rat.inv Rat.add Rat.sub Rat.ofScientific

/-- **C4 (counterexample to the claim as stated).**  In the concrete degraded
run whose turnover dataset misses one industry, `run_analysis` succeeds and
its table contains a row whose 换手分 is NaN — which lies in no closed
interval, in particular not in `[0, 100]`. -/
theorem C4_counterexample_turnover_nan :
    run_analysis none cNowAB cWinA cWinA cWinA cWinA cTurnA [] = Except.ok cOutDeg ∧
    cOutDeg.table.any (fun row => row.turnScore = PyFloat.pnan) = true ∧
    ¬ PyFloat.inIcc PyFloat.pnan 0 100 :=
  ⟨by decide, by decide, fun h => h⟩

/-- Witness for C2 at concrete inputs: a score vector satisfying both rule 1
and rule 3 is labelled capital-offensive, and the top row of the concrete run
carries the classifier's label of its own scores. -/
theorem C2_witness :
    signalFor (.pnum 80) (.pnum 40) (.pnum 70) (.pnum 90) "无" = "资金主攻" ∧
    cRowFull.signal = signalFor cRowFull.moneyScore cRowFull.priceScore
      cRowFull.turnScore cRowFull.trendScore cRowFull.row.bigDeal :=
  ⟨C2_signal_classifier.2.2.1 (.pnum 80) (.pnum 40) (.pnum 70) (.pnum 90) "无"
      (by decide) (by decide),
   C2_signal_classifier.2.2.2 cNowAB cWinA cWinA cWinA cWinA cTurnAB [] cOutFull
      (by decide) cRowFull (by decide)⟩

/-- Witness for the amended C4, at the fully-enriched concrete run and at the
degraded mixed-turnover run of the counterexample: in the latter, the money,
price and trend scores of the top row are still bounded, and so is its
turnover score, its own merged `换手率` being a number. -/
theorem C4_witness :
    (cRowFull.moneyScore.inIcc 0 100 ∧ cRowFull.priceScore.inIcc 0 100 ∧
      cRowFull.trendScore.inIcc 0 100 ∧ cRowFull.turnScore.inIcc 0 100) ∧
    ((cOutDeg.table.getD 0 default).moneyScore.inIcc 0 100 ∧
      (cOutDeg.table.getD 0 default).priceScore.inIcc 0 100 ∧
      (cOutDeg.table.getD 0 default).trendScore.inIcc 0 100 ∧
      (cOutDeg.table.getD 0 default).turnScore.inIcc 0 100) :=
  have hfull := C4_scores_in_range cNowAB cWinA cWinA cWinA cWinA cTurnAB []
    cOutFull (by decide) (by decide) cRowFull (by decide)
  have hdeg := C4_scores_in_range cNowAB cWinA cWinA cWinA cWinA cTurnA []
    cOutDeg (by decide) (by decide) (cOutDeg.table.getD 0 default) (by decide)
  ⟨⟨hfull.1, hfull.2.1, hfull.2.2.1, hfull.2.2.2 (by decide)⟩,
   ⟨hdeg.1, hdeg.2.1, hdeg.2.2.1, hdeg.2.2.2 (by decide)⟩⟩

/-- Witness for C5 at the concrete run: the top row's industry is one of the
instant-window industries. -/
theorem C5_witness :
    cRowFull.row.industry ∈ cNowAB.map InstantRow.industry :=
  C5_output_industries_from_instant cNowAB cWinA cWinA cWinA cWinA cTurnAB []
    cOutFull (by decide) cRowFull (by decide)

/-- Witness for C6 at the spec's example scenario 5: five items of which the
one at index 3 raises yield exactly four collected results. -/
theorem C6_witness :
    (run_with_thread_pool (ItemsArg.list [1, 2, 3, 4, 5])
      (fun a : ℕ => if a = 4 then WorkerOutcome.raised else .value (some a))
      10).results.length = 5 - 1 :=
  (C6_run_with_thread_pool_partial_failure [1, 2, 3, 4, 5]
    (fun a : ℕ => if a = 4 then WorkerOutcome.raised else .value (some a)) 1 10
    (by decide) (by decide)).1

/-- Witness for C7 at the concrete run: the cache file actually written
parses back to the table the run returned. -/
theorem C7_witness :
    parseTable (cOutFull.cacheWrite.getD []) = some cOutFull.table :=
  (C7_cache_roundtrip []).2.2.2 none cNowAB cWinA cWinA cWinA cWinA cTurnAB []
    cOutFull (by decide) (cOutFull.cacheWrite.getD []) (by decide)

/-- Witness for the amended C8 at concrete inputs: an 亿-suffixed and a
万-suffixed string scale as claimed, an unparseable string yields 0.0, and
the function is idempotent on a non-NaN output. -/
theorem C8_witness :
    normalize_amount (PyVal.vstr " 3.5亿 ") = PyFloat.pnum (7/2) ∧
    normalize_amount (PyVal.vstr "200万") = PyFloat.pnum (200 / 10000) ∧
    normalize_amount (PyVal.vstr "x7") = PyFloat.pnum 0 ∧
    normalize_amount (PyVal.vfloat (normalize_amount (PyVal.vstr "2亿"))) =
      normalize_amount (PyVal.vstr "2亿") :=
  ⟨C8_normalize_amount_contract.2.2.2.2.1 " 3.5亿 " (7/2) (by decide) (by decide),
   C8_normalize_amount_contract.2.2.2.2.2.1 "200万" 200 (by decide) (by decide)
     (by decide),
   C8_normalize_amount_contract.2.2.2.1 "x7" (by decide) (by decide) (by decide),
   C8_normalize_amount_contract.2.2.2.2.2.2 (PyVal.vstr "2亿") (by decide)⟩

/-- Witness for C9 at concrete inputs: `3.5亿` normalises to `3.5` in one
routine and `35000` in the other, and on a `万`-suffixed input the second
routine equals `10000 ×` the first. -/
theorem C9_witness :
    (normalize_amount (PyVal.vstr "3.5亿") = PyFloat.pnum (7/2) ∧
      convert_to_wan (PyVal.vstr "3.5亿") = PyFloat.pnum (7/2 * 10000)) ∧
    convert_to_wan (PyVal.vstr "200万") =
      (normalize_amount (PyVal.vstr "200万")).pymul 10000 :=
  ⟨C9_opposite_scale_conventions.1 "3.5亿" (7/2) (by decide) (by decide),
   C9_opposite_scale_conventions.2.2 "200万" (Or.inr (by decide))⟩

end
